import Mathlib

/-!
Shallow embedding of `src/app.py` (a Streamlit "Hybrid LLM Assistant"):
a four-stage pipeline (local precheck, cloud call, local postcheck, audit
log append) together with the module-level model-availability check.

External effects (the `ollama run` subprocess, the OpenAI chat call, the
`ollama list` subprocess, and the wall clock) are modelled by an
environment record `Env`; fallible calls return `Except String String`,
where the `.error` payload is the text of the raised Python exception.
The file state of `audit_log.json` is threaded explicitly as a `String`.
-/

namespace LocalLLM

/-! ## Python string primitives used by app.py -/

/-- The characters Python's `str.strip()` removes: ASCII whitespace and
control separators plus the Unicode space separators. -/
def pyIsSpace (c : Char) : Bool :=
  c.toNat ∈ [9, 10, 11, 12, 13, 28, 29, 30, 31, 32, 133, 160, 0x1680,
    0x2000, 0x2001, 0x2002, 0x2003, 0x2004, 0x2005, 0x2006, 0x2007, 0x2008,
    0x2009, 0x200a, 0x2028, 0x2029, 0x202f, 0x205f, 0x3000]

/-- Python `str.strip()`: drop whitespace from both ends. -/
def pyStrip (s : String) : String :=
  ⟨((s.data.dropWhile pyIsSpace).reverse.dropWhile pyIsSpace).reverse⟩

/-- ASCII case folding of one character (the only case relevant to the
gate token `"no"`, which is pure ASCII). -/
def lowerChar (c : Char) : Char :=
  if 'A' ≤ c ∧ c ≤ 'Z' then Char.ofNat (c.toNat + 32) else c

/-- Python `str.lower()` restricted to ASCII folding. -/
def pyLower (s : String) : String :=
  ⟨s.data.map lowerChar⟩

/-- `p` is a leading segment of `l`. -/
def pfxB : List Char → List Char → Bool
  | [], _ => true
  | _ :: _, [] => false
  | a :: p, b :: l => a = b && pfxB p l

/-- `n` occurs contiguously somewhere in the list. -/
def subB (n : List Char) : List Char → Bool
  | [] => n.isEmpty
  | c :: rest => pfxB n (c :: rest) || subB n rest

/-- Python's `x in y` on strings: contiguous substring test. -/
def pyIn (x y : String) : Bool :=
  subB x.data y.data

/-! ## The environment: external world as seen by app.py -/

/-- A naive (timezone-free) UTC timestamp, as produced by Python's
`datetime.utcnow()`. -/
structure UTCDateTime where
  year : Nat
  month : Nat
  day : Nat
  hour : Nat
  minute : Nat
  second : Nat
  microsecond : Nat

/-- Oracles for the three external channels and the clock.
`ollamaRun model stdinText` models `subprocess.run(["ollama", "run", model],
input=...)` returning decoded stdout; `cloudChat query` models the OpenAI
chat-completion call returning the first choice's message content;
`ollamaList` models the stdout of `subprocess.run(["ollama", "list"])`.
An `.error e` carries the text of the exception the call raised. -/
structure Env where
  ollamaRun : String → String → Except String String
  cloudChat : String → Except String String
  ollamaList : Except String String
  now : UTCDateTime

/-! ## The three call-and-parse functions (app.py lines 12-42) -/

/-- The fixed compliance-check template of `validate_prompt_with_local`
(app.py lines 13-18). -/
def check_prompt (prompt : String) : String :=
  "You are a data compliance assistant.\nDoes the following prompt contain any PII, PHI, confidential, proprietary, or internal information? Is it safe to send this prompt to a cloud-based LLM provider? Answer only YES or NO and explain.\n\nPrompt:\n" ++ prompt

/-- `validate_prompt_with_local(prompt, model)` (app.py lines 12-23):
run the local model on the templated prompt, return stripped stdout;
a raised exception is caught and becomes the inline sentinel string. -/
def validate_prompt_with_local (env : Env) (prompt model : String) : String :=
  match env.ollamaRun model (check_prompt prompt) with
  | .ok stdout => pyStrip stdout
  | .error e => "[Local validation error: " ++ e ++ "]"

/-- `ask_local(prompt, model_name)` (app.py lines 26-31). -/
def ask_local (env : Env) (prompt model_name : String) : String :=
  match env.ollamaRun model_name prompt with
  | .ok stdout => pyStrip stdout
  | .error e => "[Error calling local LLM: " ++ e ++ "]"

/-- `ask_cloud(query)` (app.py lines 34-42): on success the first choice's
message content stripped; any exception becomes the inline sentinel. -/
def ask_cloud (env : Env) (query : String) : String :=
  match env.cloudChat query with
  | .ok content => pyStrip content
  | .error e => "[Error calling cloud LLM: " ++ e ++ "]"

/-- The fixed review template of step 3 (app.py lines 100-104). -/
def review_prompt (cloud_response : String) : String :=
  "You are a regulatory compliance expert. Review the following cloud-generated answer:\n\n" ++ cloud_response ++ "\n\nIs it accurate, compliant, and free of hallucinations or misstatements?"

/-! ## datetime.isoformat (used at app.py line 47) -/

/-- The decimal digit character for `d % 10`. -/
def digitChar (d : Nat) : Char :=
  Char.ofNat (48 + d % 10)

/-- Decimal digits of `n`, most significant first. -/
def natDigits (n : Nat) : List Char :=
  if _h : n < 10 then [digitChar n]
  else natDigits (n / 10) ++ [digitChar (n % 10)]
termination_by n
decreasing_by exact Nat.div_lt_self (by omega) (by omega)

/-- Zero-pad the decimal form of `n` to at least `w` characters
(Python's `%0wd`, as used by `datetime.isoformat`). -/
def padNum (w n : Nat) : List Char :=
  List.replicate (w - (natDigits n).length) '0' ++ natDigits n

/-- `datetime.isoformat()` on a naive datetime:
`YYYY-MM-DDTHH:MM:SS[.ffffff]`, with the microsecond part omitted when it
is zero and no timezone designator appended. -/
def isoformat (d : UTCDateTime) : String :=
  ⟨padNum 4 d.year ++ '-' :: padNum 2 d.month ++ '-' :: padNum 2 d.day ++
    'T' :: padNum 2 d.hour ++ ':' :: padNum 2 d.minute ++ ':' :: padNum 2 d.second ++
    (if d.microsecond = 0 then [] else '.' :: padNum 6 d.microsecond)⟩

/-! ## json.dumps (used at app.py line 53)

`json.dumps` with default options: `ensure_ascii=True`, separators
`", "` and `": "`.  The audit record is a flat dict of four string
fields, so the encoder below covers objects whose values are strings. -/

/-- Lowercase hexadecimal digit for `n % 16`. -/
def hexDigit (n : Nat) : Char :=
  if n % 16 < 10 then Char.ofNat (48 + n % 16) else Char.ofNat (87 + n % 16)

/-- Four lowercase hex digits of `n < 0x10000`, as in a `\uXXXX` escape. -/
def hex4 (n : Nat) : List Char :=
  [hexDigit (n / 4096), hexDigit (n / 256), hexDigit (n / 16), hexDigit n]

/-- CPython's `py_encode_basestring_ascii` escaping of one character:
quote and backslash escaped; control characters via short escapes or
`\u00XX`; every character outside `0x20`-`0x7e` via `\uXXXX`, astral
characters as a surrogate pair. -/
def escapeChar (c : Char) : List Char :=
  if c = '"' then ['\\', '"']
  else if c = '\\' then ['\\', '\\']
  else if c.toNat = 8 then ['\\', 'b']
  else if c.toNat = 9 then ['\\', 't']
  else if c.toNat = 10 then ['\\', 'n']
  else if c.toNat = 12 then ['\\', 'f']
  else if c.toNat = 13 then ['\\', 'r']
  else if c.toNat < 0x20 ∨ 0x7e < c.toNat then
    if c.toNat < 0x10000 then '\\' :: 'u' :: hex4 c.toNat
    else
      ('\\' :: 'u' :: hex4 (0xd800 + (c.toNat - 0x10000) / 1024)) ++
        ('\\' :: 'u' :: hex4 (0xdc00 + (c.toNat - 0x10000) % 1024))
  else [c]

/-- Body of an encoded JSON string (without the surrounding quotes). -/
def encStrBody (s : List Char) : List Char :=
  s.flatMap escapeChar

/-- An encoded JSON string, quotes included. -/
def encStr (s : List Char) : List Char :=
  '"' :: encStrBody s ++ ['"']

/-- One `"key": "value"` member, with `json.dumps`'s default `": "`
separator. -/
def encMember (kv : String × String) : List Char :=
  encStr kv.1.data ++ ':' :: ' ' :: encStr kv.2.data

/-- The members of an object, joined by `json.dumps`'s default `", "`. -/
def encMembers : List (String × String) → List Char
  | [] => []
  | [kv] => encMember kv
  | kv :: rest => encMember kv ++ ',' :: ' ' :: encMembers rest

/-- `json.dumps` of a dict of strings, in insertion order. -/
def json_dumps (e : List (String × String)) : String :=
  ⟨'\x7b' :: encMembers e ++ ['\x7d']⟩

/-! ## A JSON reader, to state that the audit line is valid JSON

An independent decoder for JSON objects with string values (the shape of
every audit record).  It accepts standard JSON string escapes, including
`\uXXXX` and surrogate pairs, and optional whitespace around tokens. -/

/-- Value of one hexadecimal digit character, either case. -/
def unhex (c : Char) : Option Nat :=
  if '0' ≤ c ∧ c ≤ '9' then some (c.toNat - 48)
  else if 'a' ≤ c ∧ c ≤ 'f' then some (c.toNat - 87)
  else if 'A' ≤ c ∧ c ≤ 'F' then some (c.toNat - 55)
  else none

/-- Value of a four-hex-digit group, as in `\uXXXX`. -/
def hex4val (a b c d : Char) : Option Nat :=
  (unhex a).bind fun x => (unhex b).bind fun y => (unhex c).bind fun z =>
    (unhex d).map fun w => x * 4096 + y * 256 + z * 16 + w

/-- JSON whitespace. -/
def jsonWs (c : Char) : Bool :=
  c = ' ' ∨ c = '\t' ∨ c = '\n' ∨ c = '\r'

/-- Drop leading JSON whitespace. -/
def skipWs (l : List Char) : List Char :=
  l.dropWhile jsonWs

/-- Decode the `\uXXXX` low-surrogate escape that must follow a high
surrogate `n`; the pair decodes to one astral character. -/
def decodeLowSur (n : Nat) : List Char → Option (Char × List Char)
  | s1 :: s2 :: a :: b :: c :: d :: rest =>
    if s1 = '\\' ∧ s2 = 'u' then
      match hex4val a b c d with
      | none => none
      | some m =>
        if 0xdc00 ≤ m ∧ m ≤ 0xdfff then
          some (Char.ofNat (0x10000 + (n - 0xd800) * 1024 + (m - 0xdc00)), rest)
        else none
    else none
  | _ => none

/-- Decode a `\uXXXX` group (input starts after the `u`).  A high
surrogate must be followed by a `\uXXXX` low surrogate, the pair
decoding to one astral character; a lone low surrogate is refused. -/
def decodeU : List Char → Option (Char × List Char)
  | a :: b :: c :: d :: rest =>
    match hex4val a b c d with
    | none => none
    | some n =>
      if 0xd800 ≤ n ∧ n ≤ 0xdbff then decodeLowSur n rest
      else if 0xdc00 ≤ n ∧ n ≤ 0xdfff then none
      else some (Char.ofNat n, rest)
  | _ => none

/-- Decode one escape sequence (input starts after the backslash). -/
def decodeEsc : List Char → Option (Char × List Char)
  | [] => none
  | e :: rest =>
    if e = '"' then some ('"', rest)
    else if e = '\\' then some ('\\', rest)
    else if e = '/' then some ('/', rest)
    else if e = 'b' then some (Char.ofNat 8, rest)
    else if e = 'f' then some (Char.ofNat 12, rest)
    else if e = 'n' then some ('\n', rest)
    else if e = 'r' then some (Char.ofNat 13, rest)
    else if e = 't' then some ('\t', rest)
    else if e = 'u' then decodeU rest
    else none

/-- Read the body of a JSON string after its opening quote, up to and
including the closing quote; returns the decoded characters and the
remaining input.  Raw control characters are refused and escape
sequences are decoded.  `fuel` bounds the number of decoded characters;
callers pass the input length, which always suffices. -/
def parseStrBody : Nat → List Char → Option (List Char × List Char)
  | 0, _ => none
  | _ + 1, [] => none
  | fuel + 1, c :: rest =>
    if c = '"' then some ([], rest)
    else if c = '\\' then
      match decodeEsc rest with
      | none => none
      | some (d, rest2) => (parseStrBody fuel rest2).map fun p => (d :: p.1, p.2)
    else if c.toNat < 0x20 then none
    else (parseStrBody fuel rest).map fun p => (c :: p.1, p.2)

/-- Read one JSON string, opening quote included. -/
def parseJString (l : List Char) : Option (List Char × List Char) :=
  match l with
  | [] => none
  | c :: rest => if c = '"' then parseStrBody l.length rest else none

/-- Read the members of an object after its opening brace: a
comma-separated sequence of `"key": "value"` pairs followed by the
closing brace.  `fuel` bounds the number of members. -/
def parseMembers : Nat → List Char → Option (List (String × String) × List Char)
  | 0, _ => none
  | fuel + 1, l =>
    match parseJString (skipWs l) with
    | none => none
    | some (k, r1) =>
      match skipWs r1 with
      | ':' :: r2 =>
        match parseJString (skipWs r2) with
        | none => none
        | some (v, r3) =>
          match skipWs r3 with
          | ',' :: r4 => (parseMembers fuel r4).map fun p => ((⟨k⟩, ⟨v⟩) :: p.1, p.2)
          | '\x7d' :: r4 => some ([(⟨k⟩, ⟨v⟩)], r4)
          | _ => none
      | _ => none

/-- Read one JSON object whose values are strings. -/
def parseTopObject (l : List Char) : Option (List (String × String) × List Char) :=
  match skipWs l with
  | c :: r =>
    if c = '\x7b' then
      match skipWs r with
      | c2 :: r2 =>
          if c2 = '\x7d' then some ([], r2) else parseMembers (l.length + 1) (c2 :: r2)
      | [] => none
    else none
  | [] => none

/-- Decode one audit line: a complete JSON object with string fields and
nothing but whitespace after it. -/
def parseAudit (line : String) : Option (List (String × String)) :=
  match parseTopObject line.data with
  | some (e, r) => if skipWs r = [] then some e else none
  | none => none

/-! ## audit_log and the submit handler (app.py lines 45-53 and 80-114) -/

/-- The dict built by `audit_log` (app.py lines 46-51). -/
def audit_entry (now : UTCDateTime) (user_input cloud_resp local_resp : String) :
    List (String × String) :=
  [("timestamp", isoformat now), ("input", user_input),
    ("cloud_response", cloud_resp), ("local_validation", local_resp)]

/-- The text one `audit_log` call appends: the serialized record plus a
trailing newline (app.py line 53). -/
def audit_line (now : UTCDateTime) (user_input cloud_resp local_resp : String) : String :=
  json_dumps (audit_entry now user_input cloud_resp local_resp) ++ "\n"

/-- `audit_log(user_input, cloud_resp, local_resp)` (app.py lines 45-53),
with the contents of `audit_log.json` threaded explicitly: opening in
append mode and writing one line extends the file by that line. -/
def audit_log (env : Env) (user_input cloud_resp local_resp file : String) : String :=
  file ++ audit_line env.now user_input cloud_resp local_resp

/-- Observable outcome of one press of the Submit button. -/
structure SubmitResult where
  precheckCalled : Bool
  feedbackShown : Option String
  rejected : Bool
  cloudCalled : Bool
  postcheckCalled : Bool
  displayedCloud : Option String
  displayedReview : Option String
  appended : Option String
  deriving DecidableEq, Repr

/-- The submit handler (app.py lines 80-114), as a function from the
environment, the query, the resolved local model and the current audit
file contents to the observable result and the new file contents. -/
def submit (env : Env) (query model file : String) : SubmitResult × String :=
  if pyStrip query = "" then
    (⟨false, none, false, false, false, none, none, none⟩, file)
  else
    let validation_feedback := validate_prompt_with_local env query model
    if pyIn "no" (pyLower validation_feedback) then
      (⟨true, some validation_feedback, true, false, false, none, none, none⟩, file)
    else
      let cloud_response := ask_cloud env query
      let local_review := ask_local env (review_prompt cloud_response) model
      (⟨true, some validation_feedback, false, true, true, some cloud_response,
          some local_review, some (audit_line env.now query cloud_response local_review)⟩,
        audit_log env query cloud_response local_review file)

/-! ## Model availability check (app.py lines 67-77) -/

/-- What the module-level availability block does before any submission. -/
inductive StartupAction where
  | proceed : StartupAction
  | haltMissing (warning remediation : String) : StartupAction
  | haltCheckFailed (errMsg : String) : StartupAction
  deriving DecidableEq, Repr

/-- The `if LOCAL_MODEL:` block (app.py lines 67-77): skipped when the
resolved model name is falsy (empty); otherwise `ollama list` is run and
the model name is looked up as a substring of its stdout; a missing model
or a raised exception halts the page before the Submit button. -/
def model_availability_check (env : Env) (LOCAL_MODEL : String) : StartupAction :=
  if LOCAL_MODEL = "" then .proceed
  else
    match env.ollamaList with
    | .ok stdout =>
        if pyIn LOCAL_MODEL stdout then .proceed
        else
          .haltMissing ("Model " ++ LOCAL_MODEL ++ " not installed.")
            ("ollama pull " ++ LOCAL_MODEL)
    | .error e => .haltCheckFailed ("Model check failed: " ++ e)

/-- One page run: outcome of the availability check, then (only if it
proceeded) the submit handler. -/
inductive PageResult where
  | haltedMissing (warning remediation : String) : PageResult
  | haltedCheckFailed (errMsg : String) : PageResult
  | ran (r : SubmitResult) : PageResult
  deriving DecidableEq, Repr

/-- The module-level flow: availability check, then the submit handler.
A halt leaves the audit file untouched and never reaches `submit`. -/
def page (env : Env) (query model file : String) : PageResult × String :=
  match model_availability_check env model with
  | .haltMissing w r => (.haltedMissing w r, file)
  | .haltCheckFailed e => (.haltedCheckFailed e, file)
  | .proceed =>
      let (r, f) := submit env query model file
      (.ran r, f)

/-! ## Concrete environments, used to witness the theorems -/

/-- An environment whose local model approves everything, whose cloud
call succeeds, and whose `ollama list` shows one installed model. -/
def envA : Env :=
  ⟨fun _ _ => Except.ok " YES. Safe to send. ",
   fun _ => Except.ok " The answer is 42. ",
   Except.ok "NAME ID SIZE\nmistral:latest abc 4.1 GB",
   ⟨2025, 1, 2, 3, 4, 5, 6⟩⟩

/-- An environment whose local model flags everything. -/
def envRej : Env :=
  ⟨fun _ _ => Except.ok "NO. This is sensitive.",
   fun _ => Except.ok " The answer is 42. ",
   Except.ok "NAME ID SIZE\nmistral:latest abc 4.1 GB",
   ⟨2025, 1, 2, 3, 4, 5, 6⟩⟩

/-- An environment where every external call raises. -/
def envErr : Env :=
  ⟨fun _ _ => Except.error "boom",
   fun _ => Except.error "net down",
   Except.error "not found",
   ⟨2025, 1, 2, 3, 4, 5, 0⟩⟩

/-- A realistic `ollama list` stdout: a header line plus one installed
model. -/
def demo_listing : String :=
  "NAME            ID              SIZE\nllama3:latest   a1b2c3d4e5f6    4.7 GB"

/-- The model names `demo_listing` actually lists. -/
def demo_installed : List String := ["llama3:latest"]

/-- An environment whose `ollama list` prints `demo_listing`. -/
def envList : Env :=
  ⟨fun _ _ => Except.ok "YES", fun _ => Except.ok "ok", Except.ok demo_listing,
   ⟨2025, 1, 1, 0, 0, 0, 0⟩⟩

/-- `envA` with only the precheck answer changed: it disagrees with
`envA` exactly on the templated precheck prompt for the query `"hi"`. -/
def envA2 : Env :=
  ⟨fun m p => if p = check_prompt "hi" then Except.ok "Sure, absolutely YES."
      else envA.ollamaRun m p,
   envA.cloudChat, envA.ollamaList, envA.now⟩

/-! ## Round trip: the reader decodes what json_dumps wrote -/

theorem stringMk_data (s : String) : String.mk s.data = s := rfl

theorem unhex_hexDigit (d : Nat) : unhex (hexDigit d) = some (d % 16) := by
  have h16 : d % 16 < 16 := by omega
  have hmod : hexDigit d = hexDigit (d % 16) := by
    unfold hexDigit
    have h : d % 16 % 16 = d % 16 := by omega
    rw [h]
  rw [hmod]
  generalize d % 16 = k at h16 ⊢
  interval_cases k <;> decide

theorem hex4val_hex4 (n : Nat) (h : n < 0x10000) :
    hex4val (hexDigit (n / 4096)) (hexDigit (n / 256)) (hexDigit (n / 16)) (hexDigit n) =
      some n := by
  simp [hex4val, unhex_hexDigit]
  omega

/-- A `Char`'s scalar value is never in the surrogate range and is below
`0x110000`. -/
theorem char_valid_nat (c : Char) :
    c.toNat < 0xd800 ∨ (0xdfff < c.toNat ∧ c.toNat < 0x110000) :=
  c.valid

/-- Decoding a high/low surrogate escape pair. -/
theorem decodeEsc_surPair (H L : Nat) (hhs : 0xd800 ≤ H ∧ H ≤ 0xdbff)
    (hls : 0xdc00 ≤ L ∧ L ≤ 0xdfff) (X : List Char) :
    decodeEsc ('u' :: hex4 H ++ '\\' :: 'u' :: hex4 L ++ X) =
      some (Char.ofNat (0x10000 + (H - 0xd800) * 1024 + (L - 0xdc00)), X) := by
  have hhi : H < 0x10000 := by omega
  have hlo : L < 0x10000 := by omega
  simp [hex4, decodeEsc, decodeU, decodeLowSur, hex4val_hex4 _ hhi, if_pos hhs,
    hex4val_hex4 _ hlo, if_pos hls, hhs.1, hhs.2, hls.1, hls.2]

/-- What `escapeChar` wrote, the reader decodes back to the same
character: either the character was emitted literally (and is then a
plain, non-control, non-quote, non-backslash character), or an escape
sequence was emitted and `decodeEsc` reads it back. -/
theorem escapeChar_spec (c : Char) :
    (escapeChar c = [c] ∧ c ≠ '"' ∧ c ≠ '\\' ∧ ¬(c.toNat < 0x20)) ∨
    (∃ tail, escapeChar c = '\\' :: tail ∧
      ∀ X, decodeEsc (tail ++ X) = some (c, X)) := by
  have hval := char_valid_nat c
  by_cases h1 : c = '"'
  · exact .inr ⟨['"'], by subst h1; simp [escapeChar], by intro X; subst h1; simp [decodeEsc]⟩
  by_cases h2 : c = '\\'
  · exact .inr ⟨['\\'], by subst h2; simp [escapeChar], by intro X; subst h2; simp [decodeEsc]⟩
  by_cases h3 : c.toNat = 8
  · have hc : c = Char.ofNat 8 := by rw [← h3, Char.ofNat_toNat]
    exact .inr ⟨['b'], by rw [hc]; simp [escapeChar], by intro X; simp [decodeEsc, hc]⟩
  by_cases h4 : c.toNat = 9
  · have hc : c = Char.ofNat 9 := by rw [← h4, Char.ofNat_toNat]
    exact .inr ⟨['t'], by rw [hc]; simp [escapeChar], by intro X; simp [decodeEsc, hc]⟩
  by_cases h5 : c.toNat = 10
  · have hc : c = Char.ofNat 10 := by rw [← h5, Char.ofNat_toNat]
    exact .inr ⟨['n'], by rw [hc]; simp [escapeChar], by intro X; simp [decodeEsc, hc]⟩
  by_cases h6 : c.toNat = 12
  · have hc : c = Char.ofNat 12 := by rw [← h6, Char.ofNat_toNat]
    exact .inr ⟨['f'], by rw [hc]; simp [escapeChar], by intro X; simp [decodeEsc, hc]⟩
  by_cases h7 : c.toNat = 13
  · have hc : c = Char.ofNat 13 := by rw [← h7, Char.ofNat_toNat]
    exact .inr ⟨['r'], by rw [hc]; simp [escapeChar], by intro X; simp [decodeEsc, hc]⟩
  by_cases h8 : c.toNat < 0x20 ∨ 0x7e < c.toNat
  · right
    by_cases h9 : c.toNat < 0x10000
    · refine ⟨'u' :: hex4 c.toNat, ?_, ?_⟩
      · simp only [escapeChar, if_neg h1, if_neg h2, if_neg h3, if_neg h4, if_neg h5,
          if_neg h6, if_neg h7, if_pos h8, if_pos h9]
      · intro X
        have hs : ¬(0xd800 ≤ c.toNat ∧ c.toNat ≤ 0xdbff) := by omega
        have hs2 : ¬(0xdc00 ≤ c.toNat ∧ c.toNat ≤ 0xdfff) := by omega
        simp [hex4, decodeEsc, decodeU, hex4val_hex4 c.toNat h9, if_neg hs, if_neg hs2,
          Char.ofNat_toNat]
    · have hlt : c.toNat < 0x110000 := by omega
      refine ⟨'u' :: hex4 (0xd800 + (c.toNat - 0x10000) / 1024) ++
        '\\' :: 'u' :: hex4 (0xdc00 + (c.toNat - 0x10000) % 1024), ?_, ?_⟩
      · simp only [escapeChar, if_neg h1, if_neg h2, if_neg h3, if_neg h4, if_neg h5,
          if_neg h6, if_neg h7, if_pos h8, if_neg h9, hex4, List.cons_append,
          List.nil_append]
      · intro X
        have hhs : 0xd800 ≤ 0xd800 + (c.toNat - 0x10000) / 1024 ∧
            0xd800 + (c.toNat - 0x10000) / 1024 ≤ 0xdbff := by omega
        have hls : 0xdc00 ≤ 0xdc00 + (c.toNat - 0x10000) % 1024 ∧
            0xdc00 + (c.toNat - 0x10000) % 1024 ≤ 0xdfff := by omega
        have harith : 0x10000 + (0xd800 + (c.toNat - 0x10000) / 1024 - 0xd800) * 1024 +
            (0xdc00 + (c.toNat - 0x10000) % 1024 - 0xdc00) = c.toNat := by omega
        have hshape : ('u' :: hex4 (0xd800 + (c.toNat - 0x10000) / 1024) ++
              '\\' :: 'u' :: hex4 (0xdc00 + (c.toNat - 0x10000) % 1024)) ++ X =
            'u' :: hex4 (0xd800 + (c.toNat - 0x10000) / 1024) ++
              '\\' :: 'u' :: hex4 (0xdc00 + (c.toNat - 0x10000) % 1024) ++ X := by
          simp [List.append_assoc]
        rw [hshape, decodeEsc_surPair _ _ hhs hls X, harith, Char.ofNat_toNat]
  · left
    have hq : ¬(c.toNat < 0x20) := by omega
    refine ⟨?_, h1, h2, hq⟩
    simp only [escapeChar, if_neg h1, if_neg h2, if_neg h3, if_neg h4, if_neg h5,
      if_neg h6, if_neg h7, if_neg h8]

theorem encStrBody_cons (c : Char) (s : List Char) :
    encStrBody (c :: s) = escapeChar c ++ encStrBody s := by
  simp [encStrBody]

theorem escapeChar_length_pos (c : Char) : 0 < (escapeChar c).length := by
  rcases escapeChar_spec c with ⟨h, -, -, -⟩ | ⟨tail, h, -⟩ <;> simp [h]

theorem length_encStrBody (s : List Char) : s.length ≤ (encStrBody s).length := by
  induction s with
  | nil => simp [encStrBody]
  | cons c s ih =>
    have hc := escapeChar_length_pos c
    rw [encStrBody_cons, List.length_append, List.length_cons]
    omega

/-- Reading back an encoded string body, up to its closing quote. -/
theorem parseStrBody_enc (s : List Char) :
    ∀ (fuel : Nat), s.length < fuel → ∀ rest : List Char,
      parseStrBody fuel (encStrBody s ++ '"' :: rest) = some (s, rest) := by
  induction s with
  | nil =>
    intro fuel hf rest
    cases fuel with
    | zero => simp at hf
    | succ f => simp [encStrBody, parseStrBody]
  | cons c s ih =>
    intro fuel hf rest
    cases fuel with
    | zero => simp at hf
    | succ f =>
      have hsf : s.length < f := by
        simp only [List.length_cons] at hf
        omega
      rw [encStrBody_cons, List.append_assoc]
      rcases escapeChar_spec c with ⟨he, hq, hb, hctl⟩ | ⟨tail, he, hd⟩
      · rw [he, List.cons_append, List.nil_append]
        simp only [parseStrBody, if_neg hq, if_neg hb, if_neg hctl]
        rw [ih f hsf rest]
        rfl
      · rw [he, List.cons_append]
        simp only [parseStrBody]
        rw [hd (encStrBody s ++ '"' :: rest)]
        simp only [reduceIte, Char.reduceEq]
        rw [ih f hsf rest]
        rfl

/-- Reading back an encoded string, quotes included. -/
theorem parseJString_enc (s rest : List Char) :
    parseJString (encStr s ++ rest) = some (s, rest) := by
  have h1 : encStr s ++ rest = '"' :: (encStrBody s ++ '"' :: rest) := by
    simp [encStr]
  rw [h1]
  have h2 : s.length < ('"' :: (encStrBody s ++ '"' :: rest)).length := by
    have := length_encStrBody s
    simp only [List.length_cons, List.length_append]
    omega
  simp only [parseJString, if_true]
  exact parseStrBody_enc s _ h2 rest

theorem skipWs_not_ws (c : Char) (l : List Char) (h : jsonWs c = false) :
    skipWs (c :: l) = c :: l := by
  simp [skipWs, h]

theorem skipWs_space (l : List Char) : skipWs (' ' :: l) = skipWs l := by
  simp [skipWs, jsonWs]

theorem skipWs_encStr (s r : List Char) : skipWs (encStr s ++ r) = encStr s ++ r := by
  rw [encStr, List.cons_append]
  exact skipWs_not_ws _ _ (by decide)

theorem parseMembers_space (f : Nat) (l : List Char) :
    parseMembers f (' ' :: l) = parseMembers f l := by
  cases f with
  | zero => rfl
  | succ f => simp only [parseMembers, skipWs_space]

/-- Reading back the encoded members of a nonempty object, up to and
including the closing brace. -/
theorem parseMembers_enc (e : List (String × String)) :
    ∀ (fuel : Nat) (rest : List Char), e ≠ [] → e.length ≤ fuel →
      parseMembers fuel (encMembers e ++ '\x7d' :: rest) = some (e, rest) := by
  induction e with
  | nil => intro fuel rest h _; exact absurd rfl h
  | cons kv e' ih =>
    intro fuel rest _ hf
    cases fuel with
    | zero => simp at hf
    | succ f =>
      cases e' with
      | nil =>
        have h1 : encMembers [kv] ++ '\x7d' :: rest =
            encStr kv.1.data ++ ':' :: ' ' :: (encStr kv.2.data ++ '\x7d' :: rest) := by
          simp [encMembers, encMember]
        rw [h1]
        simp only [parseMembers, skipWs_encStr, parseJString_enc,
          skipWs_not_ws ':' _ (by decide), skipWs_space, skipWs_encStr,
          skipWs_not_ws '\x7d' _ (by decide), stringMk_data]
      | cons kv2 e'' =>
        have h1 : encMembers (kv :: kv2 :: e'') ++ '\x7d' :: rest =
            encStr kv.1.data ++ ':' :: ' ' :: (encStr kv.2.data ++
              ',' :: ' ' :: (encMembers (kv2 :: e'') ++ '\x7d' :: rest)) := by
          simp [encMembers, encMember]
        have hlen : (kv2 :: e'').length ≤ f := by
          simp only [List.length_cons] at hf ⊢
          omega
        rw [h1]
        simp only [parseMembers, skipWs_encStr, parseJString_enc,
          skipWs_not_ws ':' _ (by decide), skipWs_space, skipWs_encStr,
          skipWs_not_ws ',' _ (by decide), parseMembers_space,
          ih f rest (by simp) hlen, stringMk_data]
        simp

theorem length_encMember (kv : String × String) : 2 ≤ (encMember kv).length := by
  simp [encMember, encStr]
  omega

theorem length_encMembers (e : List (String × String)) :
    e.length ≤ (encMembers e).length := by
  induction e with
  | nil => simp [encMembers]
  | cons kv e' ih =>
    cases e' with
    | nil =>
      have := length_encMember kv
      simp only [encMembers, List.length_cons, List.length_nil]
      omega
    | cons kv2 e'' =>
      have h2 := length_encMember kv
      simp only [encMembers, List.length_append, List.length_cons] at ih ⊢
      omega

theorem encMembers_head (kv : String × String) (e : List (String × String)) :
    ∃ t, encMembers (kv :: e) = '"' :: t := by
  cases e with
  | nil => exact ⟨encStrBody kv.1.data ++ '"' :: (':' :: ' ' :: encStr kv.2.data),
      by simp [encMembers, encMember, encStr]⟩
  | cons kv2 e'' => exact ⟨encStrBody kv.1.data ++ '"' :: (':' :: ' ' :: encStr kv.2.data ++
      ',' :: ' ' :: encMembers (kv2 :: e'')),
      by simp [encMembers, encMember, encStr]⟩

/-- The reader decodes every line `json_dumps` writes back to the exact
list of fields it was given: the audit line is valid JSON. -/
theorem parseAudit_json_dumps (e : List (String × String)) :
    parseAudit (json_dumps e) = some e := by
  cases e with
  | nil => rfl
  | cons kv e' =>
    obtain ⟨t, ht⟩ := encMembers_head kv e'
    have hdata : (json_dumps (kv :: e')).data =
        '\x7b' :: (encMembers (kv :: e') ++ ['\x7d']) := rfl
    have hne : jsonWs '"' = false := by decide
    have hlen : (kv :: e').length ≤ ('\x7b' :: (encMembers (kv :: e') ++ ['\x7d'])).length + 1 := by
      have h := length_encMembers (kv :: e')
      simp only [List.length_cons, List.length_append, List.length_nil] at h ⊢
      omega
    unfold parseAudit
    rw [hdata]
    unfold parseTopObject
    rw [skipWs_not_ws '\x7b' _ (by decide)]
    simp only [reduceIte, Char.reduceEq]
    rw [ht, List.cons_append, skipWs_not_ws '"' _ hne]
    simp only [reduceIte, Char.reduceEq]
    rw [← List.cons_append, ← ht]
    rw [parseMembers_enc (kv :: e') _ [] (by simp) (by simpa using hlen)]
    rfl

/-! ## The audit line is one line: json_dumps never emits a newline -/

theorem hexDigit_ne_newline (m : Nat) : hexDigit m ≠ '\n' := by
  have h16 : m % 16 < 16 := by omega
  have hmod : hexDigit m = hexDigit (m % 16) := by
    unfold hexDigit
    have h : m % 16 % 16 = m % 16 := by omega
    rw [h]
  rw [hmod]
  generalize m % 16 = k at h16
  interval_cases k <;> decide

theorem newline_eq_hexDigit_iff (m : Nat) : ('\n' = hexDigit m) ↔ False :=
  ⟨fun h => hexDigit_ne_newline m h.symm, False.elim⟩

theorem newline_not_mem_escapeChar (c : Char) : '\n' ∉ escapeChar c := by
  intro hmem
  unfold escapeChar at hmem
  split at hmem
  · simp at hmem
  split at hmem
  · simp at hmem
  split at hmem
  · simp at hmem
  split at hmem
  · simp at hmem
  split at hmem
  · simp at hmem
  split at hmem
  · simp at hmem
  split at hmem
  · simp at hmem
  split at hmem
  · split at hmem <;> simp [hex4, newline_eq_hexDigit_iff] at hmem
  · next h1 h2 h3 h4 h5 h6 h7 h8 =>
    simp at hmem
    subst hmem
    exact h5 rfl

theorem newline_not_mem_encStrBody (s : List Char) : '\n' ∉ encStrBody s := by
  intro h
  simp only [encStrBody, List.mem_flatMap] at h
  obtain ⟨a, -, ha⟩ := h
  exact newline_not_mem_escapeChar a ha

theorem newline_not_mem_encStr (s : List Char) : '\n' ∉ encStr s := by
  intro h
  rw [encStr] at h
  rcases List.mem_cons.mp h with h | h
  · exact absurd h (by decide)
  · rcases List.mem_append.mp h with h | h
    · exact newline_not_mem_encStrBody s h
    · simp at h

theorem newline_not_mem_encMember (kv : String × String) : '\n' ∉ encMember kv := by
  intro h
  rw [encMember] at h
  rcases List.mem_append.mp h with h | h
  · exact newline_not_mem_encStr _ h
  · rcases List.mem_cons.mp h with h | h
    · exact absurd h (by decide)
    · rcases List.mem_cons.mp h with h | h
      · exact absurd h (by decide)
      · exact newline_not_mem_encStr _ h

theorem newline_not_mem_encMembers (e : List (String × String)) :
    '\n' ∉ encMembers e := by
  induction e with
  | nil => simp [encMembers]
  | cons kv e' ih =>
    cases e' with
    | nil => exact newline_not_mem_encMember kv
    | cons kv2 e'' =>
      intro h
      have hrw : encMembers (kv :: kv2 :: e'') =
          encMember kv ++ ',' :: ' ' :: encMembers (kv2 :: e'') := rfl
      rw [hrw] at h
      rcases List.mem_append.mp h with h | h
      · exact newline_not_mem_encMember kv h
      · rcases List.mem_cons.mp h with h | h
        · exact absurd h (by decide)
        · rcases List.mem_cons.mp h with h | h
          · exact absurd h (by decide)
          · exact ih h

/-- `json_dumps` output never contains a raw newline, so one write is one
line of the audit file. -/
theorem newline_not_mem_json_dumps (e : List (String × String)) :
    '\n' ∉ (json_dumps e).data := by
  intro h
  have hdata : (json_dumps e).data = '\x7b' :: (encMembers e ++ ['\x7d']) := rfl
  rw [hdata] at h
  rcases List.mem_cons.mp h with h | h
  · exact absurd h (by decide)
  · rcases List.mem_append.mp h with h | h
    · exact newline_not_mem_encMembers e h
    · simp at h

/-! ## The timestamp carries no timezone designator -/

theorem digitChar_ne (m : Nat) : digitChar m ≠ '+' ∧ digitChar m ≠ 'Z' := by
  have h10 : m % 10 < 10 := by omega
  have hmod : digitChar m = digitChar (m % 10) := by
    unfold digitChar
    have h : m % 10 % 10 = m % 10 := by omega
    rw [h]
  rw [hmod]
  generalize m % 10 = k at h10
  interval_cases k <;> exact ⟨by decide, by decide⟩

theorem mem_natDigits_eq_digitChar (n : Nat) :
    ∀ c ∈ natDigits n, ∃ d, c = digitChar d := by
  induction n using Nat.strong_induction_on with
  | _ n ih =>
    intro c hc
    rw [natDigits] at hc
    split at hc
    · simp at hc
      exact ⟨n, hc⟩
    · simp only [List.mem_append, List.mem_singleton] at hc
      rcases hc with hc | hc
      · exact ih (n / 10) (Nat.div_lt_self (by omega) (by omega)) c hc
      · exact ⟨n % 10, hc⟩

theorem padNum_no_tz (w n : Nat) : '+' ∉ padNum w n ∧ 'Z' ∉ padNum w n := by
  constructor <;>
  · intro h
    simp only [padNum, List.mem_append, List.mem_replicate] at h
    rcases h with h | h
    · exact absurd h.2 (by decide)
    · obtain ⟨d, hd⟩ := mem_natDigits_eq_digitChar n _ h
      first
      | exact (digitChar_ne d).1 hd.symm
      | exact (digitChar_ne d).2 hd.symm

/-- The serialized timestamp contains no `+` and no `Z`: a naive
`datetime`'s `isoformat` carries no timezone suffix. -/
theorem isoformat_no_tz (d : UTCDateTime) :
    '+' ∉ (isoformat d).data ∧ 'Z' ∉ (isoformat d).data := by
  have hy := padNum_no_tz 4 d.year
  have hmo := padNum_no_tz 2 d.month
  have hd := padNum_no_tz 2 d.day
  have hh := padNum_no_tz 2 d.hour
  have hmi := padNum_no_tz 2 d.minute
  have hs := padNum_no_tz 2 d.second
  have hus := padNum_no_tz 6 d.microsecond
  constructor <;>
  · intro h
    by_cases hz : d.microsecond = 0 <;> simp [isoformat, hz] at h <;> tauto

/-! ## The claims -/

/-- C1: for every submission (nonempty after stripping) whose precheck
reply, lowercased, does not contain the substring "no", the pipeline
proceeds to the cloud call; whenever the lowercased reply contains "no"
anywhere, the pipeline stops, reports rejection, and does not call the
cloud model. -/
theorem claim_c1_gate (env : Env) (query model file : String)
    (hq : pyStrip query ≠ "") :
    (pyIn "no" (pyLower (validate_prompt_with_local env query model)) = false →
      (submit env query model file).1.cloudCalled = true) ∧
    (pyIn "no" (pyLower (validate_prompt_with_local env query model)) = true →
      (submit env query model file).1.rejected = true ∧
        (submit env query model file).1.cloudCalled = false) := by
  constructor <;> intro hg <;> simp [submit, hq, hg]

theorem claim_c1_gate_w :
    (submit envA "hi" "mistral" "").1.cloudCalled = true ∧
    ((submit envRej "hi" "mistral" "").1.rejected = true ∧
      (submit envRej "hi" "mistral" "").1.cloudCalled = false) :=
  ⟨(claim_c1_gate envA "hi" "mistral" "" (by decide)).1 (by decide),
   (claim_c1_gate envRej "hi" "mistral" "" (by decide)).2 (by decide)⟩

/-- C2: a submission rejected at the precheck stage makes no cloud call,
no postcheck call, and appends nothing: the audit file is unchanged. -/
theorem claim_c2_reject_shortcircuits (env : Env) (query model file : String)
    (hq : pyStrip query ≠ "")
    (hrej : pyIn "no" (pyLower (validate_prompt_with_local env query model)) = true) :
    (submit env query model file).1.cloudCalled = false ∧
    (submit env query model file).1.postcheckCalled = false ∧
    (submit env query model file).1.appended = none ∧
    (submit env query model file).2 = file := by
  simp [submit, hq, hrej]

theorem claim_c2_reject_shortcircuits_w :
    (submit envRej "hi" "mistral" "log").1.cloudCalled = false ∧
    (submit envRej "hi" "mistral" "log").1.postcheckCalled = false ∧
    (submit envRej "hi" "mistral" "log").1.appended = none ∧
    (submit envRej "hi" "mistral" "log").2 = "log" :=
  claim_c2_reject_shortcircuits envRej "hi" "mistral" "log" (by decide) (by decide)

/-- C3: a query that is empty or whitespace-only stops the handler before
any pipeline call: no precheck, no cloud call, no postcheck, and no audit
write. -/
theorem claim_c3_empty_query (env : Env) (query model file : String)
    (hq : pyStrip query = "") :
    (submit env query model file).1 = ⟨false, none, false, false, false, none, none, none⟩ ∧
    (submit env query model file).2 = file := by
  simp [submit, hq]

theorem claim_c3_empty_query_w :
    (submit envA " \n\t  " "mistral" "log").1 =
      ⟨false, none, false, false, false, none, none, none⟩ ∧
    (submit envA " \n\t  " "mistral" "log").2 = "log" :=
  claim_c3_empty_query envA " \n\t  " "mistral" "log" (by decide)

/-- C4: a successful full run appends exactly one line, namely the
`json_dumps` of the four-field record followed by one newline (and the
serialized record itself contains no newline); for every input strings,
the line decodes back to exactly the four fields, with `input` the
literal query and `cloud_response` the literal cloud-stage text. -/
theorem claim_c4_audit_line (env : Env) (query model file : String)
    (hq : pyStrip query ≠ "")
    (hgate : pyIn "no" (pyLower (validate_prompt_with_local env query model)) = false) :
    (submit env query model file).2 =
      file ++ (json_dumps (audit_entry env.now query (ask_cloud env query)
        (ask_local env (review_prompt (ask_cloud env query)) model)) ++ "\n") ∧
    (submit env query model file).1.appended =
      some (json_dumps (audit_entry env.now query (ask_cloud env query)
        (ask_local env (review_prompt (ask_cloud env query)) model)) ++ "\n") ∧
    '\n' ∉ (json_dumps (audit_entry env.now query (ask_cloud env query)
        (ask_local env (review_prompt (ask_cloud env query)) model))).data ∧
    parseAudit (json_dumps (audit_entry env.now query (ask_cloud env query)
        (ask_local env (review_prompt (ask_cloud env query)) model))) =
      some (audit_entry env.now query (ask_cloud env query)
        (ask_local env (review_prompt (ask_cloud env query)) model)) ∧
    audit_entry env.now query (ask_cloud env query)
        (ask_local env (review_prompt (ask_cloud env query)) model) =
      [("timestamp", isoformat env.now), ("input", query),
        ("cloud_response", ask_cloud env query),
        ("local_validation", ask_local env (review_prompt (ask_cloud env query)) model)] := by
  refine ⟨?_, ?_, newline_not_mem_json_dumps _, parseAudit_json_dumps _, rfl⟩
  · simp [submit, hq, hgate, audit_log, audit_line]
  · simp [submit, hq, hgate, audit_line]

theorem claim_c4_audit_line_w :
    (submit envA "a\"b\nc" "mistral" "pre").2 =
      "pre" ++ (json_dumps (audit_entry envA.now "a\"b\nc" (ask_cloud envA "a\"b\nc")
        (ask_local envA (review_prompt (ask_cloud envA "a\"b\nc")) "mistral")) ++ "\n") ∧
    (submit envA "a\"b\nc" "mistral" "pre").1.appended =
      some (json_dumps (audit_entry envA.now "a\"b\nc" (ask_cloud envA "a\"b\nc")
        (ask_local envA (review_prompt (ask_cloud envA "a\"b\nc")) "mistral")) ++ "\n") ∧
    '\n' ∉ (json_dumps (audit_entry envA.now "a\"b\nc" (ask_cloud envA "a\"b\nc")
        (ask_local envA (review_prompt (ask_cloud envA "a\"b\nc")) "mistral"))).data ∧
    parseAudit (json_dumps (audit_entry envA.now "a\"b\nc" (ask_cloud envA "a\"b\nc")
        (ask_local envA (review_prompt (ask_cloud envA "a\"b\nc")) "mistral"))) =
      some (audit_entry envA.now "a\"b\nc" (ask_cloud envA "a\"b\nc")
        (ask_local envA (review_prompt (ask_cloud envA "a\"b\nc")) "mistral")) ∧
    audit_entry envA.now "a\"b\nc" (ask_cloud envA "a\"b\nc")
        (ask_local envA (review_prompt (ask_cloud envA "a\"b\nc")) "mistral") =
      [("timestamp", isoformat envA.now), ("input", "a\"b\nc"),
        ("cloud_response", ask_cloud envA "a\"b\nc"),
        ("local_validation", ask_local envA (review_prompt (ask_cloud envA "a\"b\nc")) "mistral")] :=
  claim_c4_audit_line envA "a\"b\nc" "mistral" "pre" (by decide) (by decide)

/-- C5: a transport failure of the precheck call is caught and becomes
the inline sentinel string, which the compliance gate then treats exactly
like a model answer: the pipeline continues to the cloud call whenever
the sentinel, lowercased, does not contain "no", and rejects whenever it
does. -/
theorem claim_c5_precheck_transport_failure (env : Env) (query model file e : String)
    (hq : pyStrip query ≠ "")
    (herr : env.ollamaRun model (check_prompt query) = .error e) :
    validate_prompt_with_local env query model =
      "[Local validation error: " ++ e ++ "]" ∧
    (pyIn "no" (pyLower ("[Local validation error: " ++ e ++ "]")) = false →
      (submit env query model file).1.cloudCalled = true) ∧
    (pyIn "no" (pyLower ("[Local validation error: " ++ e ++ "]")) = true →
      (submit env query model file).1.rejected = true ∧
        (submit env query model file).1.cloudCalled = false) := by
  have hv : validate_prompt_with_local env query model =
      "[Local validation error: " ++ e ++ "]" := by
    simp [validate_prompt_with_local, herr]
  refine ⟨hv, fun hg => ?_, fun hg => ?_⟩ <;> simp [submit, hq, hv, hg]

theorem claim_c5_precheck_transport_failure_w :
    validate_prompt_with_local envErr "hi" "mistral" =
      "[Local validation error: boom]" ∧
    (submit envErr "hi" "mistral" "").1.cloudCalled = true := by
  have h := claim_c5_precheck_transport_failure envErr "hi" "mistral" "" "boom"
    (by decide) rfl
  exact ⟨h.1, h.2.1 (by decide)⟩

/-- C6: every exception in the cloud call is caught and becomes the
inline sentinel string; on success the cloud stage returns the first
choice content stripped of surrounding whitespace; either way the value
flows downstream as an ordinary string (it is displayed and logged
unconditionally). -/
theorem claim_c6_cloud_result (env : Env) (query model file e content : String) :
    (env.cloudChat query = .error e →
      ask_cloud env query = "[Error calling cloud LLM: " ++ e ++ "]") ∧
    (env.cloudChat query = .ok content → ask_cloud env query = pyStrip content) ∧
    (pyStrip query ≠ "" →
      pyIn "no" (pyLower (validate_prompt_with_local env query model)) = false →
      (submit env query model file).1.displayedCloud = some (ask_cloud env query) ∧
      (submit env query model file).1.appended =
        some (audit_line env.now query (ask_cloud env query)
          (ask_local env (review_prompt (ask_cloud env query)) model))) := by
  refine ⟨fun h => by simp [ask_cloud, h], fun h => by simp [ask_cloud, h],
    fun hq hg => ?_⟩
  simp [submit, hq, hg]

theorem claim_c6_cloud_result_w :
    ask_cloud envErr "hi" = "[Error calling cloud LLM: net down]" ∧
    ask_cloud envA "hi" = pyStrip " The answer is 42. " ∧
    (submit envA "hi" "mistral" "").1.displayedCloud = some (ask_cloud envA "hi") :=
  ⟨(claim_c6_cloud_result envErr "hi" "mistral" "" "net down" "x").1 rfl,
   (claim_c6_cloud_result envA "hi" "mistral" "" "e" " The answer is 42. ").2.1 rfl,
   ((claim_c6_cloud_result envA "hi" "mistral" "" "e" "x").2.2 (by decide) (by decide)).1⟩

/-- C7: every audit record carries as `timestamp` the `isoformat` of the
current UTC time, which contains no `+` and no `Z` (no timezone suffix);
the record is serialized as one JSON object followed by one newline and
appended to the existing file contents. -/
theorem claim_c7_audit_format (env : Env) (u c l file : String) :
    audit_log env u c l file =
      file ++ (json_dumps (audit_entry env.now u c l) ++ "\n") ∧
    audit_entry env.now u c l =
      [("timestamp", isoformat env.now), ("input", u), ("cloud_response", c),
        ("local_validation", l)] ∧
    '+' ∉ (isoformat env.now).data ∧ 'Z' ∉ (isoformat env.now).data ∧
    '\n' ∉ (json_dumps (audit_entry env.now u c l)).data :=
  ⟨rfl, rfl, (isoformat_no_tz env.now).1, (isoformat_no_tz env.now).2,
    newline_not_mem_json_dumps _⟩

/-- C8: with a nonempty resolved model name, if the name does not occur
in the `ollama list` stdout the page halts showing the remediation
command `ollama pull <model>` before any submission, and if the listing
call raises the page reports the failure and halts; either way the audit
file is untouched and the submit handler never runs. -/
theorem claim_c8_availability_halts (env : Env) (query model file : String)
    (hm : model ≠ "") :
    (∀ out, env.ollamaList = .ok out → pyIn model out = false →
      page env query model file =
        (.haltedMissing ("Model " ++ model ++ " not installed.")
          ("ollama pull " ++ model), file)) ∧
    (∀ e, env.ollamaList = .error e →
      page env query model file =
        (.haltedCheckFailed ("Model check failed: " ++ e), file)) := by
  constructor
  · intro out hout hsub
    simp [page, model_availability_check, hm, hout, hsub]
  · intro e he
    simp [page, model_availability_check, hm, he]

theorem claim_c8_availability_halts_w :
    page envList "hi" "gemma" "f" =
      (.haltedMissing "Model gemma not installed." "ollama pull gemma", "f") ∧
    page envErr "hi" "mistral" "f" =
      (.haltedCheckFailed "Model check failed: not found", "f") :=
  ⟨(claim_c8_availability_halts envList "hi" "gemma" "f" (by decide)).1
      demo_listing rfl (by decide),
   (claim_c8_availability_halts envErr "hi" "mistral" "f" (by decide)).2
      "not found" rfl⟩

/-- C9: the availability check is a plain substring test on the whole
listing stdout: any nonempty name occurring anywhere in the output
passes.  Concretely, the name "llama" passes against a listing whose
only installed model is "llama3:latest", so passing the check does not
imply the model is installed. -/
theorem claim_c9_substring_check (env : Env) (model out : String)
    (hm : model ≠ "") (hout : env.ollamaList = .ok out) :
    (pyIn model out = true → model_availability_check env model = .proceed) ∧
    (model_availability_check envList "llama" = .proceed ∧
      "llama" ∉ demo_installed) := by
  refine ⟨fun hsub => ?_, by decide, by decide⟩
  simp [model_availability_check, hm, hout, hsub]

theorem claim_c9_substring_check_w :
    model_availability_check envList "NAME" = .proceed :=
  (claim_c9_substring_check envList "NAME" demo_listing (by decide) rfl).1 (by decide)

/-- C10: the precheck verdict is never written to the audit log.  The
appended line is built from the timestamp, the query, the cloud answer
and the stage-3 postcheck review only -- its `local_validation` field is
the postcheck text -- and two environments that agree on the cloud call,
the clock and the postcheck call but answer the precheck arbitrarily
differently produce the same appended record whenever both pass the
gate. -/
theorem claim_c10_precheck_not_logged (env env2 : Env) (query model file file2 : String)
    (hq : pyStrip query ≠ "")
    (hcloud : env2.cloudChat query = env.cloudChat query)
    (hnow : env2.now = env.now)
    (hrev : env2.ollamaRun model (review_prompt (ask_cloud env query)) =
      env.ollamaRun model (review_prompt (ask_cloud env query)))
    (hgate : pyIn "no" (pyLower (validate_prompt_with_local env query model)) = false)
    (hgate2 : pyIn "no" (pyLower (validate_prompt_with_local env2 query model)) = false) :
    (submit env query model file).1.appended =
      some (audit_line env.now query (ask_cloud env query)
        (ask_local env (review_prompt (ask_cloud env query)) model)) ∧
    audit_entry env.now query (ask_cloud env query)
        (ask_local env (review_prompt (ask_cloud env query)) model) =
      [("timestamp", isoformat env.now), ("input", query),
        ("cloud_response", ask_cloud env query),
        ("local_validation", ask_local env (review_prompt (ask_cloud env query)) model)] ∧
    (submit env2 query model file2).1.appended = (submit env query model file).1.appended := by
  have hc : ask_cloud env2 query = ask_cloud env query := by
    simp [ask_cloud, hcloud]
  have hl : ask_local env2 (review_prompt (ask_cloud env query)) model =
      ask_local env (review_prompt (ask_cloud env query)) model := by
    simp [ask_local, hrev]
  refine ⟨?_, rfl, ?_⟩
  · simp [submit, hq, hgate]
  · simp [submit, hq, hgate, hgate2, hc, hl, hnow]

set_option maxRecDepth 4000 in
theorem claim_c10_precheck_not_logged_w :
    (submit envA2 "hi" "mistral" "x").1.appended =
      (submit envA "hi" "mistral" "").1.appended :=
  (claim_c10_precheck_not_logged envA envA2 "hi" "mistral" "" "x"
    (by decide) rfl rfl rfl (by decide) (by decide)).2.2

end LocalLLM
